import Mathlib

/-!
Verification of the zone-visits reporting tool (`src/main.py`).

The program loads a zone reference (GUID → name), fetches half-hour visitor
counts from an HTTP API and renders a console table.  The embedding below
translates the pure logic of the source: the request building and response
validation of `fetch_visitors_data` and the whole of `create_visitors_table`,
including the Python `dict` semantics it relies on (insertion order, duplicate
keys overwriting, and `NaN` keys never comparing equal to any string key).
-/

namespace ZoneVisits

/-- A `[timeLabel, entries, exits]` triple of a zone's time series. -/
structure TimeSlot where
  time : String
  entries : Int
  exits : Int
deriving DecidableEq, Repr

/-- A per-zone record `[guid, unused, unused, timeSlots]` of the response's
`data` array.  The two unused positions are kept as opaque integers. -/
structure ZoneRecord where
  guid : String
  unused1 : Int
  unused2 : Int
  timeSlots : List TimeSlot
deriving DecidableEq, Repr

/-- The parsed visitor response consumed by `create_visitors_table`.
`selected := none` models a JSON body with no `selected` key at all
(the source reads it with `visitors.get("selected", [])`). -/
structure VisitorResponse where
  picker_date : String
  selected : Option (List String)
  data : List ZoneRecord
deriving DecidableEq, Repr

/-- One row of the reference spreadsheet.  `guid := none` models a row whose
GUID cell is missing (pandas `NaN`). -/
structure RefRow where
  guid : Option String
  name : String
deriving DecidableEq, Repr

/-- The two-valued metric selector (`class Metric(StrEnum)`). -/
inductive Metric where
  | entries : Metric
  | exits : Metric
deriving DecidableEq, BEq, Repr

/-- `Metric.value` of the `StrEnum`: `auto()` yields the lowercased member name. -/
def metric_value : Metric → String
  | .entries => "entries"
  | .exits => "exits"

/-- The rendered table: title, header cells, and body rows (each row is the
time label followed by one cell per selected zone, rich markup included). -/
structure RenderTable where
  title : String
  columns : List String
  rows : List (List String)
deriving DecidableEq, Repr

/-! ### Python `dict` model

A Python `dict` built by successive insertions, represented as its entry list
in iteration (insertion) order.  `eqk` is Python `==` on keys; it need not be
reflexive (`NaN == NaN` is false), but the source only uses keys for which
`==` is symmetric and transitive. -/

/-- `d[k] = v`: overwrite the value of an entry whose key equals `k`
(keeping the original key object and its position), else append. -/
def pdictInsert {K V : Type} (eqk : K → K → Bool) (d : List (K × V)) (k : K) (v : V) :
    List (K × V) :=
  if d.any (fun p => eqk p.1 k) then d.map (fun p => if eqk p.1 k then (p.1, v) else p)
  else d ++ [(k, v)]

/-- The dict produced by inserting the pairs of `l` left to right into `{}`:
a `dict(zip(ks, vs))` or a dict comprehension. -/
def pdictOfList {K V : Type} (eqk : K → K → Bool) (l : List (K × V)) : List (K × V) :=
  l.foldl (fun d p => pdictInsert eqk d p.1 p.2) []

/-- `d.get(k)`: the value of the entry whose key equals `k`, if any. -/
def pdictGet {K V : Type} (eqk : K → K → Bool) (d : List (K × V)) (k : K) : Option V :=
  (d.find? (fun p => eqk p.1 k)).map (fun p => p.2)

/-- `d.values()` in iteration order. -/
def pdictValues {K V : Type} (d : List (K × V)) : List V := d.map (fun p => p.2)

/-- Python `==` on reference GUID cells: `NaN` (modelled `none`) compares
unequal to everything, including itself. -/
def pyEq : Option String → Option String → Bool
  | some a, some b => a == b
  | _, _ => false

/-- Python `==` on plain string keys. -/
def strEq (a b : String) : Bool := a == b

/-! ### `fetch_visitors_data` (source lines 40-62) -/

/-- The single GET request the fetcher issues: URL and query parameters. -/
structure HttpRequest where
  url : String
  params : List (String × String)
deriving DecidableEq, Repr

/-- The request built at lines 44-50: fixed path `/borders/chart-data` on the
given host, with `mode=halfhour`, the date passed through verbatim, and the
comma-joined identifier list. -/
def fetch_request (api_host : String) (date : String) (guids : List String) :
    HttpRequest :=
  { url := "http://" ++ api_host ++ "/borders/chart-data"
    params := [("mode", "halfhour"), ("date", date),
               ("objects", String.intercalate "," guids)] }

/-- Shape of the decoded response body's `data` value: absent, present but not
a list, or a list of records. -/
inductive DataField where
  | missing : DataField
  | notList : DataField
  | ofList : List ZoneRecord → DataField
deriving DecidableEq

/-- A decoded response body, as far as the fetcher's validation inspects it. -/
structure ApiBody where
  dataField : DataField
deriving DecidableEq

/-- The validation of the decoded body (lines 53-59): the `assert` that `data`
exists and is a list fails into the generic handler, which exits with status 1;
an empty list exits with status 1 directly; otherwise the parsed body is
returned. -/
def fetch_visitors_data (body : ApiBody) : Except Nat ApiBody :=
  match body.dataField with
  | .ofList l => if l.isEmpty then .error 1 else .ok body
  | _ => .error 1

/-! ### `create_visitors_table` (source lines 65-104) -/

/-- Line 72: `guid_to_name = dict(zip(reference["GUID"], reference["Наименование"]))`.
Keys are the raw GUID cells, `NaN` included; Python `==` on them is `pyEq`. -/
def guid_to_name (reference : List RefRow) : List (Option String × String) :=
  pdictOfList pyEq (reference.map (fun r => (r.guid, r.name)))

/-- Line 80: `name = guid_to_name.get(guid, guid)` — column header text for a
selected identifier. -/
def column_name (reference : List RefRow) (guid : String) : String :=
  (pdictGet pyEq (guid_to_name reference) (some guid)).getD guid

/-- Line 73: `zone_guids = visitors.get("selected", [])`. -/
def zone_guids (visitors : VisitorResponse) : List String :=
  visitors.selected.getD []

/-- Lines 83-85: `{zone[0]: zone[3] for zone in visitors["data"] if zone[0] in zone_guids}`. -/
def guid_data_map (visitors : VisitorResponse) : List (String × List TimeSlot) :=
  pdictOfList strEq
    (((visitors.data).filter (fun z => (zone_guids visitors).contains z.guid)).map
      (fun z => (z.guid, z.timeSlots)))

/-- Lines 87-90: every time label added to `time_slots_set`, with multiplicity
(the set itself is its `dedup`). -/
def time_labels (visitors : VisitorResponse) : List String :=
  ((pdictValues (guid_data_map visitors)).map (fun slots => slots.map TimeSlot.time)).flatten

/-- Line 91: `sorted_times = sorted(time_slots_set)`. -/
def sorted_times (visitors : VisitorResponse) : List String :=
  ((time_labels visitors).dedup).mergeSort (fun a b => decide (a ≤ b))

/-- Lines 96-100: scan the zone's slots for the first one whose label equals
`time`; its entries or exits value (per the metric) as a string, else `"0"`. -/
def slot_value (metric : Metric) (time : String) : List TimeSlot → String
  | [] => "0"
  | s :: rest =>
    if s.time == time then
      if metric == Metric.entries then toString s.entries else toString s.exits
    else slot_value metric time rest

/-- Line 101: zero values get the dimmed rich markup. -/
def render_cell (value : String) : String :=
  if value == "0" then "[dim]" ++ value ++ "[/]" else value

/-- Lines 93-102: the body row for one sorted time label — the label, then one
rendered cell per selected zone in `selected` order. -/
def table_row (visitors : VisitorResponse) (metric : Metric) (time : String) :
    List String :=
  time :: (zone_guids visitors).map (fun guid =>
    render_cell (slot_value metric time
      ((pdictGet strEq (guid_data_map visitors) guid).getD [])))

/-- The whole of `create_visitors_table`: exit status 1 when `selected` is
empty (or absent), else the rendered table. -/
def create_visitors_table (reference : List RefRow) (visitors : VisitorResponse)
    (metric : Metric) : Except Nat RenderTable :=
  if (zone_guids visitors).isEmpty then .error 1
  else
    .ok
      { title := "Посещения зон (" ++ metric_value metric ++ ") за " ++
          visitors.picker_date
        columns := "Время" :: (zone_guids visitors).map (column_name reference)
        rows := (sorted_times visitors).map (table_row visitors metric) }

/-! ### `main` (source line 135) -/

/-- Line 135: `reference["GUID"].dropna().astype(str).tolist()` — the
identifier list sent to the API, missing GUID cells dropped. -/
def main_guids (reference : List RefRow) : List String :=
  reference.filterMap (fun r => r.guid)

/-- The cell text prescribed by the spec for one zone and one time label:
the metric's value of the first triple of the zone's series whose label
matches exactly, as a string, or `"0"` when none matches. -/
def claim_cell_value (visitors : VisitorResponse) (metric : Metric)
    (guid time : String) : String :=
  match ((pdictGet strEq (guid_data_map visitors) guid).getD []).find?
      (fun s => s.time == time) with
  | some s => if metric == Metric.entries then toString s.entries else toString s.exits
  | none => "0"

/-- Sample reference used to instantiate universally quantified theorems. -/
def sampleRef : List RefRow := [⟨some "A", "Zone A"⟩]

/-- Sample response used to instantiate universally quantified theorems
(the spec's worked scenario, slots deliberately out of order). -/
def sampleVis : VisitorResponse :=
  ⟨"12.06.2020", some ["A"],
   [⟨"A", 0, 0, [⟨"00:30", 0, 0⟩, ⟨"00:00", 5, 2⟩]⟩]⟩

/-! ### Dict lemmas -/

section DictLemmas

variable {K V : Type} (eqk : K → K → Bool)

theorem find?_map_overwrite_pos {k k' : K} {v : V}
    (hsymm : ∀ a b, eqk a b = eqk b a)
    (htrans : ∀ a b c, eqk a b = true → eqk b c = true → eqk a c = true)
    (h : eqk k' k = true) (d : List (K × V)) :
    (d.map (fun p => if eqk p.1 k' then (p.1, v) else p)).find? (fun p => eqk p.1 k) =
      (d.find? (fun p => eqk p.1 k)).map (fun p => (p.1, v)) := by
  induction d with
  | nil => rfl
  | cons p rest ih =>
    by_cases hp : eqk p.1 k = true
    · have hpk' : eqk p.1 k' = true := htrans _ _ _ hp ((hsymm k' k) ▸ h)
      simp [List.find?_cons, hp, hpk']
    · have hpk' : eqk p.1 k' = false := by
        by_contra hc
        have hc' : eqk p.1 k' = true := by
          cases hx : eqk p.1 k' with
          | true => rfl
          | false => exact absurd hx hc
        exact hp (htrans _ _ _ hc' h)

      simp [List.find?_cons, hp, hpk', ih]

theorem find?_map_overwrite_neg {k k' : K} {v : V}
    (hsymm : ∀ a b, eqk a b = eqk b a)
    (htrans : ∀ a b c, eqk a b = true → eqk b c = true → eqk a c = true)
    (h : eqk k' k = false) (d : List (K × V)) :
    (d.map (fun p => if eqk p.1 k' then (p.1, v) else p)).find? (fun p => eqk p.1 k) =
      d.find? (fun p => eqk p.1 k) := by
  induction d with
  | nil => rfl
  | cons p rest ih =>
    by_cases hp : eqk p.1 k = true
    · have hpk' : eqk p.1 k' = false := by
        by_contra hc
        have hc' : eqk p.1 k' = true := by
          cases hx : eqk p.1 k' with
          | true => rfl
          | false => exact absurd hx hc
        have : eqk k' k = true := htrans _ _ _ ((hsymm p.1 k') ▸ hc') hp
        simp [this] at h
      simp [List.find?_cons, hp, hpk']
    · by_cases hpk' : eqk p.1 k' = true
      · simp [List.find?_cons, hp, hpk', ih]
      · simp [List.find?_cons, hp, hpk', ih]

theorem pdictGet_insert
    (hsymm : ∀ a b, eqk a b = eqk b a)
    (htrans : ∀ a b c, eqk a b = true → eqk b c = true → eqk a c = true)
    (d : List (K × V)) (k' k : K) (v : V) :
    pdictGet eqk (pdictInsert eqk d k' v) k =
      if eqk k' k = true then some v else pdictGet eqk d k := by
  unfold pdictInsert pdictGet
  by_cases hany : d.any (fun p => eqk p.1 k') = true
  · by_cases h : eqk k' k = true
    · obtain ⟨w, hw, hwk'⟩ := List.any_eq_true.mp hany
      have hwk : eqk w.1 k = true := htrans _ _ _ hwk' h
      rcases hfd : d.find? (fun p => eqk p.1 k) with _ | q
      · have := List.find?_eq_none.mp hfd w hw
        simp [hwk] at this
      · simp [hany, h, find?_map_overwrite_pos eqk hsymm htrans h d, hfd]
    · have h' : eqk k' k = false := by
        cases hx : eqk k' k with
        | true => exact absurd hx h
        | false => rfl
      simp [hany, h', find?_map_overwrite_neg eqk hsymm htrans h' d]
  · have hall : ∀ w ∈ d, eqk w.1 k' = false := by
      intro w hw
      cases hx : eqk w.1 k' with
      | true => exact absurd (List.any_eq_true.mpr ⟨w, hw, hx⟩) hany
      | false => rfl
    by_cases h : eqk k' k = true
    · have hnone : d.find? (fun p => eqk p.1 k) = none := by
        apply List.find?_eq_none.mpr
        intro w hw
        cases hx : eqk w.1 k with
        | true =>
          have : eqk w.1 k' = true := htrans _ _ _ hx ((hsymm k' k) ▸ h)
          simp [hall w hw] at this
        | false => simp
      simp [hany, h, List.find?_append, hnone]
    · have h' : eqk k' k = false := by
        cases hx : eqk k' k with
        | true => exact absurd hx h
        | false => rfl
      simp [hany, h', List.find?_append]

/-- Last write wins: looking a key up in a dict built from a pair list finds
the value of the last pair whose key equals it. -/
theorem pdictGet_ofList
    (hsymm : ∀ a b, eqk a b = eqk b a)
    (htrans : ∀ a b c, eqk a b = true → eqk b c = true → eqk a c = true)
    (l : List (K × V)) (k : K) :
    pdictGet eqk (pdictOfList eqk l) k =
      (l.reverse.find? (fun p => eqk p.1 k)).map (fun p => p.2) := by
  induction l using List.reverseRecOn with
  | nil => rfl
  | append_singleton l p ih =>
    have hfold : pdictOfList eqk (l ++ [p]) =
        pdictInsert eqk (pdictOfList eqk l) p.1 p.2 := by
      unfold pdictOfList
      rw [List.foldl_append]
      rfl
    rw [hfold, pdictGet_insert eqk hsymm htrans]
    by_cases h : eqk p.1 k = true
    · simp [h, List.find?_cons]
    · have h' : eqk p.1 k = false := by
        cases hx : eqk p.1 k with
        | true => exact absurd hx h
        | false => rfl
      simp [h', List.find?_cons, ih]

end DictLemmas

theorem pyEq_symm : ∀ a b, pyEq a b = pyEq b a := by
  intro a b
  cases a with
  | none => cases b <;> rfl
  | some x =>
    cases b with
    | none => rfl
    | some y =>
      simp only [pyEq]
      by_cases h : x = y
      · subst h; rfl
      · simp [h, Ne.symm h]

theorem pyEq_trans : ∀ a b c, pyEq a b = true → pyEq b c = true → pyEq a c = true := by
  intro a b c hab hbc
  cases a with
  | none => simp [pyEq] at hab
  | some x =>
    cases b with
    | none => simp [pyEq] at hab
    | some y =>
      cases c with
      | none => simp [pyEq] at hbc
      | some z =>
        simp only [pyEq, beq_iff_eq] at hab hbc ⊢
        exact hab.trans hbc

theorem strEq_symm : ∀ a b : String, strEq a b = strEq b a := by
  intro a b
  simp only [strEq]
  by_cases h : a = b
  · subst h; rfl
  · simp [h, Ne.symm h]

theorem strEq_trans : ∀ a b c : String, strEq a b = true → strEq b c = true →
    strEq a c = true := by
  intro a b c hab hbc
  simp only [strEq, beq_iff_eq] at hab hbc ⊢
  exact hab.trans hbc

/-! ### Helper lemmas -/

theorem pyEq_some (o : Option String) (g : String) : pyEq o (some g) = (o == some g) := by
  cases o <;> rfl

/-- `guid_to_name.get(guid, guid)` equals the name of the last reference row
whose GUID cell equals the key, with the raw key as fallback. -/
theorem column_name_eq_find (reference : List RefRow) (g : String) :
    column_name reference g =
      ((reference.reverse.find? (fun r => r.guid == some g)).map RefRow.name).getD g := by
  unfold column_name guid_to_name
  rw [pdictGet_ofList pyEq pyEq_symm pyEq_trans]
  rw [← List.map_reverse, List.find?_map]
  have hp : ((fun p : Option String × String => pyEq p.1 (some g)) ∘
      (fun r : RefRow => (r.guid, r.name))) = fun r : RefRow => r.guid == some g := by
    funext r
    simp [Function.comp, pyEq_some]
  rw [hp]
  cases reference.reverse.find? (fun r : RefRow => r.guid == some g) <;> rfl

/-- Looking a zone up in `guid_data_map` yields the time series of the last
kept record whose guid equals the key. -/
theorem guid_data_map_get (visitors : VisitorResponse) (g : String) :
    pdictGet strEq (guid_data_map visitors) g =
      ((((visitors.data).filter
          (fun z => (zone_guids visitors).contains z.guid)).reverse.find?
        (fun z => z.guid == g)).map ZoneRecord.timeSlots) := by
  unfold guid_data_map
  rw [pdictGet_ofList strEq strEq_symm strEq_trans]
  rw [← List.map_reverse, List.find?_map]
  have hp : ((fun p : String × List TimeSlot => strEq p.1 g) ∘
      (fun z : ZoneRecord => (z.guid, z.timeSlots))) =
      fun z : ZoneRecord => z.guid == g := by
    funext z
    simp [Function.comp, strEq]
  rw [hp]
  cases ((visitors.data).filter
      (fun z => (zone_guids visitors).contains z.guid)).reverse.find?
      (fun z : ZoneRecord => z.guid == g) <;> rfl

/-- The scanning loop of lines 96-100 computes the first matching triple. -/
theorem slot_value_eq_find (metric : Metric) (time : String) (slots : List TimeSlot) :
    slot_value metric time slots =
      match slots.find? (fun s => s.time == time) with
      | some s => if metric == Metric.entries then toString s.entries
                  else toString s.exits
      | none => "0" := by
  induction slots with
  | nil => rfl
  | cons s rest ih =>
    by_cases h : s.time == time
    · simp [slot_value, List.find?_cons, h]
    · simp only [Bool.not_eq_true] at h
      simp [slot_value, List.find?_cons, h, ih]

/-- A label is collected into `time_slots_set` exactly when some entry of the
per-zone mapping carries a slot with that label. -/
theorem mem_time_labels (visitors : VisitorResponse) (lbl : String) :
    lbl ∈ time_labels visitors ↔
      ∃ p ∈ guid_data_map visitors, ∃ s ∈ p.2, s.time = lbl := by
  unfold time_labels pdictValues
  simp only [List.mem_flatten, List.mem_map]
  constructor
  · rintro ⟨l, ⟨slots, ⟨p, hp, rfl⟩, rfl⟩, hl⟩
    obtain ⟨s, hs, hst⟩ := List.mem_map.mp hl
    exact ⟨p, hp, s, hs, hst⟩
  · rintro ⟨p, hp, s, hs, hst⟩
    exact ⟨p.2.map TimeSlot.time, ⟨p.2, ⟨p, hp, rfl⟩, rfl⟩,
      List.mem_map.mpr ⟨s, hs, hst⟩⟩

/-- When `selected` is present and non-empty the builder returns its table. -/
theorem create_visitors_table_ok (reference : List RefRow)
    (visitors : VisitorResponse) (metric : Metric) (sel : List String)
    (hsel : visitors.selected = some sel) (hne : sel ≠ []) :
    create_visitors_table reference visitors metric =
      .ok
        { title := "Посещения зон (" ++ metric_value metric ++ ") за " ++
            visitors.picker_date
          columns := "Время" :: sel.map (column_name reference)
          rows := (sorted_times visitors).map (table_row visitors metric) } := by
  have hz : zone_guids visitors = sel := by simp [zone_guids, hsel]
  have hempty : (zone_guids visitors).isEmpty = false := by
    rw [hz]
    cases sel with
    | nil => exact absurd rfl hne
    | cons a l => rfl
  unfold create_visitors_table
  rw [hempty, hz]
  simp


/-! ### Claim theorems -/

/-- C7: for every host, date string and identifier list, the fetcher builds a
single GET request to `/borders/chart-data` on that host whose query
parameters are exactly `mode=halfhour`, the date passed through verbatim, and
the comma-join of the identifier list. -/
theorem claim_fetch_request_exact (api_host date : String) (guids : List String) :
    (fetch_request api_host date guids).url =
      "http://" ++ api_host ++ "/borders/chart-data" ∧
    (fetch_request api_host date guids).params =
      [("mode", "halfhour"), ("date", date),
       ("objects", String.intercalate "," guids)] :=
  ⟨rfl, rfl⟩

/-- C5: the fetcher exits with status 1 whenever the decoded body lacks a
`data` key, has a non-list `data` value, or an empty `data` list; it returns
the parsed body exactly when `data` is a non-empty list. -/
theorem claim_fetch_validation (body : ApiBody) :
    (fetch_visitors_data body = .error 1 ↔
      body.dataField = .missing ∨ body.dataField = .notList ∨
        body.dataField = .ofList []) ∧
    (∀ l, body.dataField = .ofList l → l ≠ [] →
      fetch_visitors_data body = .ok body) := by
  obtain ⟨df⟩ := body
  cases df with
  | missing => simp [fetch_visitors_data]
  | notList => simp [fetch_visitors_data]
  | ofList l =>
    cases l with
    | nil => simp [fetch_visitors_data]
    | cons a t =>
      constructor
      · simp [fetch_visitors_data]
      · intro l hl hne
        simp [fetch_visitors_data]

theorem claim_fetch_validation_witness :
    fetch_visitors_data ⟨DataField.ofList [⟨"A", 0, 0, []⟩]⟩ =
      .ok ⟨DataField.ofList [⟨"A", 0, 0, []⟩]⟩ :=
  (claim_fetch_validation ⟨DataField.ofList [⟨"A", 0, 0, []⟩]⟩).2
    [⟨"A", 0, 0, []⟩] rfl (List.cons_ne_nil _ _)

/-- C6: an empty `selected` list makes the table builder exit with status 1
and no table is produced; for every non-empty `selected` the builder always
returns a table — it has no other fatal path. -/
theorem claim_empty_selected_fatal (reference : List RefRow)
    (visitors : VisitorResponse) (metric : Metric) :
    (visitors.selected = some [] →
      create_visitors_table reference visitors metric = .error 1) ∧
    (∀ sel, visitors.selected = some sel → sel ≠ [] →
      ∃ t, create_visitors_table reference visitors metric = .ok t) := by
  constructor
  · intro h
    have hz : zone_guids visitors = [] := by simp [zone_guids, h]
    unfold create_visitors_table
    rw [hz]
    rfl
  · intro sel hsel hne
    exact ⟨_, create_visitors_table_ok reference visitors metric sel hsel hne⟩

theorem claim_empty_selected_fatal_witness :
    create_visitors_table sampleRef ⟨"12.06.2020", some [], []⟩ Metric.entries =
        .error 1 ∧
    ∃ t, create_visitors_table sampleRef sampleVis Metric.entries = .ok t :=
  ⟨(claim_empty_selected_fatal sampleRef ⟨"12.06.2020", some [], []⟩
      Metric.entries).1 rfl,
   (claim_empty_selected_fatal sampleRef sampleVis Metric.entries).2 ["A"] rfl
     (List.cons_ne_nil _ _)⟩

/-- C8: a response with no `selected` key at all behaves exactly like one with
an empty `selected` list — exit status 1, never a lookup error. -/
theorem claim_missing_selected_key (reference : List RefRow) (pd : String)
    (records : List ZoneRecord) (metric : Metric) :
    create_visitors_table reference ⟨pd, none, records⟩ metric = .error 1 ∧
    create_visitors_table reference ⟨pd, none, records⟩ metric =
      create_visitors_table reference ⟨pd, some [], records⟩ metric :=
  ⟨rfl, rfl⟩

/-- C3: zone columns appear in exactly `selected`'s order; each header is the
reference lookup's name for its identifier, the raw identifier itself when
absent from the reference; the fallback is a total function, never fatal. -/
theorem claim_column_order_and_names (reference : List RefRow)
    (visitors : VisitorResponse) (metric : Metric) (sel : List String)
    (hsel : visitors.selected = some sel) (hne : sel ≠ []) :
    ∃ t, create_visitors_table reference visitors metric = .ok t ∧
      t.columns = "Время" :: sel.map (column_name reference) ∧
      (∀ g, (∀ r ∈ reference, r.guid ≠ some g) → column_name reference g = g) ∧
      (∀ g, (∃ r ∈ reference, r.guid = some g) →
        ∃ r2, r2 ∈ reference ∧ r2.guid = some g ∧
          column_name reference g = r2.name) := by
  refine ⟨_, create_visitors_table_ok reference visitors metric sel hsel hne,
    rfl, ?_, ?_⟩
  · intro g hg
    rw [column_name_eq_find]
    have hnone : reference.reverse.find? (fun r => r.guid == some g) = none := by
      rw [List.find?_eq_none]
      intro r hr
      simp only [beq_iff_eq]
      exact hg r (List.mem_reverse.mp hr)
    rw [hnone]
    rfl
  · rintro g ⟨r, hr, hrg⟩
    have hsome : (reference.reverse.find? (fun r => r.guid == some g)).isSome = true := by
      rw [List.find?_isSome]
      exact ⟨r, List.mem_reverse.mpr hr, by simp [hrg]⟩
    rcases hfd : reference.reverse.find? (fun r => r.guid == some g) with _ | r2
    · rw [hfd] at hsome
      simp at hsome
    · have hmem := List.mem_reverse.mp (List.mem_of_find?_eq_some hfd)
      have hpred := List.find?_some hfd
      refine ⟨r2, hmem, by simpa using hpred, ?_⟩
      rw [column_name_eq_find, hfd]
      rfl

theorem claim_column_order_and_names_witness :
    ∃ t, create_visitors_table sampleRef sampleVis Metric.entries = .ok t ∧
      t.columns = "Время" :: ["A"].map (column_name sampleRef) ∧
      (∀ g, (∀ r ∈ sampleRef, r.guid ≠ some g) → column_name sampleRef g = g) ∧
      (∀ g, (∃ r ∈ sampleRef, r.guid = some g) →
        ∃ r2, r2 ∈ sampleRef ∧ r2.guid = some g ∧
          column_name sampleRef g = r2.name) :=
  claim_column_order_and_names sampleRef sampleVis Metric.entries ["A"] rfl
    (List.cons_ne_nil _ _)

/-- C4: GUIDs act as unique lookup keys — a later reference row with the same
GUID silently overwrites an earlier one in the name lookup — and a row with a
missing GUID cell affects neither any header lookup nor the identifier list
sent to the API. -/
theorem claim_guid_unique_keys_and_dropna (rows1 rows2 : List RefRow)
    (g n nm : String) :
    ((∀ r ∈ rows2, r.guid ≠ some g) →
      column_name (rows1 ++ ⟨some g, n⟩ :: rows2) g = n) ∧
    column_name (rows1 ++ ⟨none, nm⟩ :: rows2) g = column_name (rows1 ++ rows2) g ∧
    main_guids (rows1 ++ ⟨none, nm⟩ :: rows2) = main_guids (rows1 ++ rows2) := by
  refine ⟨?_, ?_, ?_⟩
  · intro h2
    rw [column_name_eq_find]
    have hnone : rows2.reverse.find? (fun r => r.guid == some g) = none := by
      rw [List.find?_eq_none]
      intro r hr
      simp only [beq_iff_eq]
      exact h2 r (List.mem_reverse.mp hr)
    rw [List.reverse_append, List.reverse_cons, List.find?_append, List.find?_append,
      hnone]
    simp [List.find?_cons]
  · rw [column_name_eq_find, column_name_eq_find]
    rw [List.reverse_append, List.reverse_cons, List.find?_append, List.find?_append,
      List.reverse_append, List.find?_append]
    simp [List.find?_cons]
  · rw [main_guids, main_guids, List.filterMap_append, List.filterMap_append,
      List.filterMap_cons]

/-- C1: for every non-empty `selected` and any reference mapping, the table
has `len(selected) + 1` columns and exactly one row per distinct time label
occurring across the selected zones' series, the rows ordered by ascending
lexicographic sort of the raw labels. -/
theorem claim_table_shape (reference : List RefRow) (visitors : VisitorResponse)
    (metric : Metric) (sel : List String)
    (hsel : visitors.selected = some sel) (hne : sel ≠ []) :
    ∃ t, create_visitors_table reference visitors metric = .ok t ∧
      t.columns.length = sel.length + 1 ∧
      t.rows.length = (sorted_times visitors).length ∧
      t.rows.map (fun r => r.headD "") = sorted_times visitors ∧
      (sorted_times visitors).Nodup ∧
      (sorted_times visitors).Sorted (fun a b => a ≤ b) ∧
      (∀ lbl, lbl ∈ sorted_times visitors ↔
        ∃ p ∈ guid_data_map visitors, ∃ s ∈ p.2, s.time = lbl) := by
  refine ⟨_, create_visitors_table_ok reference visitors metric sel hsel hne,
    ?_, ?_, ?_, ?_, ?_, ?_⟩
  · simp
  · simp
  · rw [List.map_map]
    have hcomp : ((fun r => List.headD r "") ∘ table_row visitors metric) = id := by
      funext time
      rfl
    rw [hcomp, List.map_id]
  · exact ((List.mergeSort_perm _ _).nodup_iff).mpr (List.nodup_dedup _)
  · exact List.sorted_mergeSort' _
  · intro lbl
    unfold sorted_times
    rw [(List.mergeSort_perm _ _).mem_iff, List.mem_dedup]
    exact mem_time_labels visitors lbl

theorem claim_table_shape_witness :
    ∃ t, create_visitors_table sampleRef sampleVis Metric.entries = .ok t ∧
      t.columns.length = ["A"].length + 1 ∧
      t.rows.length = (sorted_times sampleVis).length ∧
      t.rows.map (fun r => r.headD "") = sorted_times sampleVis ∧
      (sorted_times sampleVis).Nodup ∧
      (sorted_times sampleVis).Sorted (fun a b => a ≤ b) ∧
      (∀ lbl, lbl ∈ sorted_times sampleVis ↔
        ∃ p ∈ guid_data_map sampleVis, ∃ s ∈ p.2, s.time = lbl) :=
  claim_table_shape sampleRef sampleVis Metric.entries ["A"] rfl
    (List.cons_ne_nil _ _)

theorem render_cell_eq (v : String) :
    render_cell v = if v = "0" then "[dim]" ++ v ++ "[/]" else v := by
  simp [render_cell]

theorem render_cell_dim_iff (v : String) :
    render_cell v = "[dim]" ++ v ++ "[/]" ↔ v = "0" := by
  constructor
  · intro h
    by_contra hv
    rw [render_cell_eq, if_neg hv] at h
    have hlen := congrArg String.length h
    rw [String.length_append, String.length_append] at hlen
    have h5 : ("[dim]" : String).length = 5 := rfl
    have h3 : ("[/]" : String).length = 3 := rfl
    omega
  · intro hv
    rw [render_cell_eq, if_pos hv]

theorem table_row_cell (visitors : VisitorResponse) (metric : Metric)
    (sel : List String) (hsel : visitors.selected = some sel)
    (time : String) (i : Nat) (hi : i < sel.length) :
    (table_row visitors metric time).getD (i + 1) "" =
      render_cell (claim_cell_value visitors metric (sel.getD i "") time) := by
  have hz : zone_guids visitors = sel := by
    simp [zone_guids, hsel]
  have hmap : i < (sel.map (fun guid =>
      render_cell (slot_value metric time
        ((pdictGet strEq (guid_data_map visitors) guid).getD [])))).length := by
    simpa using hi
  rw [table_row, hz, List.getD_cons_succ, List.getD_eq_getElem?_getD,
    List.getElem?_eq_getElem hmap, Option.getD_some, List.getElem_map]
  have hgd : sel.getD i "" = sel[i] := by
    rw [List.getD_eq_getElem?_getD, List.getElem?_eq_getElem hi]
    rfl
  rw [hgd]
  congr 1
  rw [slot_value_eq_find]
  rfl

/-- C2: each cell equals the string form of the entries value (index 1) or
exits value (index 2) — per the requested metric — of the first triple in the
zone's series whose time label matches exactly, `"0"` when no triple matches,
and it carries the dimmed zero-marker exactly when that value is `"0"`. -/
theorem claim_cell_values (reference : List RefRow) (visitors : VisitorResponse)
    (metric : Metric) (sel : List String) (t : RenderTable)
    (hsel : visitors.selected = some sel) (hne : sel ≠ [])
    (hok : create_visitors_table reference visitors metric = .ok t) :
    t.rows = (sorted_times visitors).map (table_row visitors metric) ∧
    ∀ time i, i < sel.length →
      ((table_row visitors metric time).getD (i + 1) "" =
        (if claim_cell_value visitors metric (sel.getD i "") time = "0"
         then "[dim]" ++ claim_cell_value visitors metric (sel.getD i "") time ++ "[/]"
         else claim_cell_value visitors metric (sel.getD i "") time)) ∧
      ((table_row visitors metric time).getD (i + 1) "" =
          "[dim]" ++ claim_cell_value visitors metric (sel.getD i "") time ++ "[/]" ↔
        claim_cell_value visitors metric (sel.getD i "") time = "0") := by
  constructor
  · have hmk := create_visitors_table_ok reference visitors metric sel hsel hne
    rw [hok] at hmk
    rw [Except.ok.inj hmk]
  · intro time i hi
    rw [table_row_cell visitors metric sel hsel time i hi]
    exact ⟨render_cell_eq _, render_cell_dim_iff _⟩

theorem claim_cell_values_witness :
    ((⟨"Посещения зон (" ++ metric_value Metric.entries ++ ") за " ++
          sampleVis.picker_date,
        "Время" :: ["A"].map (column_name sampleRef),
        (sorted_times sampleVis).map (table_row sampleVis Metric.entries)⟩ :
        RenderTable).rows =
      (sorted_times sampleVis).map (table_row sampleVis Metric.entries)) ∧
    ((table_row sampleVis Metric.entries "00:00").getD 1 "" =
      (if claim_cell_value sampleVis Metric.entries (["A"].getD 0 "") "00:00" = "0"
       then "[dim]" ++
         claim_cell_value sampleVis Metric.entries (["A"].getD 0 "") "00:00" ++ "[/]"
       else claim_cell_value sampleVis Metric.entries (["A"].getD 0 "") "00:00")) ∧
    ((table_row sampleVis Metric.entries "00:00").getD 1 "" =
        "[dim]" ++
          claim_cell_value sampleVis Metric.entries (["A"].getD 0 "") "00:00" ++ "[/]" ↔
      claim_cell_value sampleVis Metric.entries (["A"].getD 0 "") "00:00" = "0") := by
  have h := claim_cell_values sampleRef sampleVis Metric.entries ["A"]
    ⟨"Посещения зон (" ++ metric_value Metric.entries ++ ") за " ++
        sampleVis.picker_date,
      "Время" :: ["A"].map (column_name sampleRef),
      (sorted_times sampleVis).map (table_row sampleVis Metric.entries)⟩
    rfl (List.cons_ne_nil _ _)
    (create_visitors_table_ok sampleRef sampleVis Metric.entries ["A"] rfl
      (List.cons_ne_nil _ _))
  exact ⟨h.1, (h.2 "00:00" 0 (by decide)).1, (h.2 "00:00" 0 (by decide)).2⟩

theorem slot_value_skip (metric : Metric) (time : String) (l1 rest : List TimeSlot)
    (h1 : ∀ u ∈ l1, u.time ≠ time) :
    slot_value metric time (l1 ++ rest) = slot_value metric time rest := by
  induction l1 with
  | nil => rfl
  | cons u l1' ih =>
    have hu : (u.time == time) = false := by
      simp [h1 u (List.mem_cons_self u l1')]
    simp only [List.cons_append, slot_value, hu]
    exact ih (fun v hv => h1 v (List.mem_cons_of_mem u hv))

/-- C9: when a zone's series holds several triples with the same time label,
the cell value comes from the first such triple in series order; later
duplicates never affect the scanned value. -/
theorem claim_first_duplicate_wins (metric : Metric) (time : String)
    (s : TimeSlot) (l1 l2 l2' : List TimeSlot)
    (h1 : ∀ u ∈ l1, u.time ≠ time) (hs : s.time = time) :
    slot_value metric time (l1 ++ s :: l2) =
      (if metric == Metric.entries then toString s.entries else toString s.exits) ∧
    slot_value metric time (l1 ++ s :: l2) =
      slot_value metric time (l1 ++ s :: l2') := by
  have hfirst : ∀ l : List TimeSlot, slot_value metric time (l1 ++ s :: l) =
      (if metric == Metric.entries then toString s.entries else toString s.exits) := by
    intro l
    rw [slot_value_skip metric time l1 (s :: l) h1]
    simp [slot_value, hs]
  exact ⟨hfirst l2, (hfirst l2).trans (hfirst l2').symm⟩

theorem claim_first_duplicate_wins_witness :
    slot_value Metric.entries "00:00"
        ([⟨"00:30", 1, 1⟩] ++ ⟨"00:00", 5, 2⟩ :: [⟨"00:00", 7, 7⟩]) =
      (if Metric.entries == Metric.entries then toString (5 : Int)
       else toString (2 : Int)) ∧
    slot_value Metric.entries "00:00"
        ([⟨"00:30", 1, 1⟩] ++ ⟨"00:00", 5, 2⟩ :: [⟨"00:00", 7, 7⟩]) =
      slot_value Metric.entries "00:00" ([⟨"00:30", 1, 1⟩] ++ [⟨"00:00", 5, 2⟩]) :=
  claim_first_duplicate_wins Metric.entries "00:00" ⟨"00:00", 5, 2⟩
    [⟨"00:30", 1, 1⟩] [⟨"00:00", 7, 7⟩] [] (by decide) rfl

theorem find?_filter_reverse_last (sel : List String) (dpre d3 : List ZoneRecord)
    (w : ZoneRecord) (hsel : sel.contains w.guid = true)
    (h3 : ∀ u ∈ d3, u.guid ≠ w.guid) :
    (((dpre ++ w :: d3).filter (fun z => sel.contains z.guid)).reverse.find?
      (fun z => z.guid == w.guid)) = some w := by
  rw [List.filter_append, List.filter_cons, if_pos hsel]
  rw [List.reverse_append, List.reverse_cons]
  have hnone : ((d3.filter (fun z => sel.contains z.guid)).reverse.find?
      (fun z => z.guid == w.guid)) = none := by
    rw [List.find?_eq_none]
    intro u hu
    have hu3 := (List.mem_filter.mp (List.mem_reverse.mp hu)).1
    simp only [beq_iff_eq]
    exact h3 u hu3
  rw [List.find?_append, List.find?_append, hnone]
  simp [List.find?_cons]

/-- C10: when `data` holds several records for the same selected identifier,
the per-zone mapping keeps only the last such record's time series; earlier
records for that identifier are discarded. -/
theorem claim_last_record_wins (pd : String) (sel : List String)
    (d1 d2 d3 : List ZoneRecord) (z w : ZoneRecord)
    (_hzw : z.guid = w.guid) (hsel : sel.contains w.guid = true)
    (h3 : ∀ u ∈ d3, u.guid ≠ w.guid) :
    pdictGet strEq (guid_data_map ⟨pd, some sel, d1 ++ z :: d2 ++ w :: d3⟩)
        w.guid = some w.timeSlots ∧
    pdictGet strEq (guid_data_map ⟨pd, some sel, d1 ++ z :: d2 ++ w :: d3⟩)
        w.guid =
      pdictGet strEq (guid_data_map ⟨pd, some sel, (d1 ++ d2) ++ w :: d3⟩)
        w.guid := by
  have hassoc : d1 ++ z :: d2 ++ w :: d3 = (d1 ++ z :: d2) ++ w :: d3 := by
    simp
  have h1 : pdictGet strEq (guid_data_map ⟨pd, some sel, d1 ++ z :: d2 ++ w :: d3⟩)
      w.guid = some w.timeSlots := by
    rw [guid_data_map_get]
    show (((d1 ++ z :: d2 ++ w :: d3).filter
        (fun z => sel.contains z.guid)).reverse.find?
      (fun z => z.guid == w.guid)).map ZoneRecord.timeSlots = some w.timeSlots
    rw [hassoc, find?_filter_reverse_last sel (d1 ++ z :: d2) d3 w hsel h3]
    rfl
  have h2 : pdictGet strEq (guid_data_map ⟨pd, some sel, (d1 ++ d2) ++ w :: d3⟩)
      w.guid = some w.timeSlots := by
    rw [guid_data_map_get]
    show ((((d1 ++ d2) ++ w :: d3).filter
        (fun z => sel.contains z.guid)).reverse.find?
      (fun z => z.guid == w.guid)).map ZoneRecord.timeSlots = some w.timeSlots
    rw [find?_filter_reverse_last sel (d1 ++ d2) d3 w hsel h3]
    rfl
  exact ⟨h1, h1.trans h2.symm⟩

theorem claim_last_record_wins_witness :
    pdictGet strEq (guid_data_map ⟨"12.06.2020", some ["A"],
        [] ++ (⟨"A", 0, 0, [⟨"00:00", 1, 1⟩]⟩ : ZoneRecord) ::
          [] ++ (⟨"A", 0, 0, [⟨"01:00", 9, 9⟩]⟩ : ZoneRecord) :: []⟩)
      (ZoneRecord.guid ⟨"A", 0, 0, [⟨"01:00", 9, 9⟩]⟩) =
      some (ZoneRecord.timeSlots ⟨"A", 0, 0, [⟨"01:00", 9, 9⟩]⟩) ∧
    pdictGet strEq (guid_data_map ⟨"12.06.2020", some ["A"],
        [] ++ (⟨"A", 0, 0, [⟨"00:00", 1, 1⟩]⟩ : ZoneRecord) ::
          [] ++ (⟨"A", 0, 0, [⟨"01:00", 9, 9⟩]⟩ : ZoneRecord) :: []⟩)
      (ZoneRecord.guid ⟨"A", 0, 0, [⟨"01:00", 9, 9⟩]⟩) =
      pdictGet strEq (guid_data_map ⟨"12.06.2020", some ["A"],
          ([] ++ []) ++ (⟨"A", 0, 0, [⟨"01:00", 9, 9⟩]⟩ : ZoneRecord) :: []⟩)
        (ZoneRecord.guid ⟨"A", 0, 0, [⟨"01:00", 9, 9⟩]⟩) :=
  claim_last_record_wins "12.06.2020" ["A"] [] [] []
    ⟨"A", 0, 0, [⟨"00:00", 1, 1⟩]⟩ ⟨"A", 0, 0, [⟨"01:00", 9, 9⟩]⟩
    rfl (by decide) (by decide)

theorem claim_guid_unique_keys_and_dropna_witness :
    column_name ([⟨some "A", "first"⟩] ++ ⟨some "A", "second"⟩ ::
        [⟨some "B", "ZB"⟩]) "A" = "second" ∧
    column_name ([⟨some "A", "first"⟩] ++ ⟨none, "nanrow"⟩ ::
        [⟨some "B", "ZB"⟩]) "A" =
      column_name ([⟨some "A", "first"⟩] ++ [⟨some "B", "ZB"⟩]) "A" ∧
    main_guids ([⟨some "A", "first"⟩] ++ ⟨none, "nanrow"⟩ :: [⟨some "B", "ZB"⟩]) =
      main_guids ([⟨some "A", "first"⟩] ++ [⟨some "B", "ZB"⟩]) := by
  have h := claim_guid_unique_keys_and_dropna [⟨some "A", "first"⟩]
    [⟨some "B", "ZB"⟩] "A" "second" "nanrow"
  exact ⟨h.1 (by decide), h.2.1, h.2.2⟩

end ZoneVisits
